import Mathlib

set_option maxRecDepth 16384

/-!
Verification development for the resume-analyzer pipeline (src/main.py).

The Python source is shallowly embedded:
* strings are Lean `String`s, with the character-level operations
  (`str.strip`, `str.replace`, `str.startswith`, `str.endswith`,
  `str.splitlines`) re-implemented over `List Char` exactly as Python
  defines them;
* `json.loads` is embedded as a fuel-indexed recursive-descent parser
  producing `JValue`, following Python's strict JSON grammar;
* each call to the generation service is modelled by a function
  `svc : String → Except String String` mapping the prompt sent to either
  the response text (`.ok`) or the message of a raised exception
  (`.error`); every stage (`analyze_resume`, `improve_resume`,
  `get_job_guidance`) takes `svc` and mirrors its `try/except` body;
* the Streamlit run (guard on empty extracted text, the three sequential
  stage calls, the feedback parsing/fallback displayed afterwards) is
  embedded as `runApp`, `runPipeline` and `renderFeedback`.
-/

/-- Python whitespace, as used by `str.strip()` (`str.isspace` code points). -/
def isPyWS (c : Char) : Bool :=
  let n := c.toNat
  (9 ≤ n && n ≤ 13) || (28 ≤ n && n ≤ 31) || n == 32 || n == 133 || n == 160 ||
    n == 5760 || (8192 ≤ n && n ≤ 8202) || n == 8232 || n == 8233 || n == 8239 ||
    n == 8287 || n == 12288

/-- Drop trailing Python whitespace (the right half of `str.strip()`). -/
def pyDropTrailWS : List Char → List Char
  | [] => []
  | c :: rest =>
    let r := pyDropTrailWS rest
    if r.isEmpty && isPyWS c then [] else c :: r

/-- Python's `str.strip()` with no argument on the character list of a string. -/
def pyStrip (l : List Char) : List Char :=
  pyDropTrailWS (l.dropWhile isPyWS)

/-- Python's `str.replace(old, new)` with the fuel that makes the left-to-right,
non-overlapping scan structurally recursive; `pyReplace` supplies enough fuel. -/
def pyReplaceF (pat repl : List Char) : Nat → List Char → List Char
  | _, [] => []
  | 0, l => l
  | n + 1, c :: rest =>
    if !pat.isEmpty && pat.isPrefixOf (c :: rest) then
      repl ++ pyReplaceF pat repl n (List.drop pat.length (c :: rest))
    else
      c :: pyReplaceF pat repl n rest

/-- Python's `str.replace(old, new)`: replace every occurrence of `pat`,
scanning left to right without overlap (for the non-empty patterns the
source uses; an empty pattern is returned unchanged, which no call site hits). -/
def pyReplace (pat repl l : List Char) : List Char :=
  pyReplaceF pat repl l.length l

/-- Whether `pat` occurs as a contiguous run somewhere in the list
(the substring test behind "global replacement removes every occurrence"). -/
def occursIn (pat : List Char) : List Char → Bool
  | [] => pat.isPrefixOf ([] : List Char)
  | c :: rest => pat.isPrefixOf (c :: rest) || occursIn pat rest

/-- The code points at which Python's `str.splitlines()` breaks a line. -/
def isPyLineBreak (c : Char) : Bool :=
  let n := c.toNat
  n == 10 || n == 11 || n == 12 || n == 13 || n == 28 || n == 29 || n == 30 ||
    n == 133 || n == 8232 || n == 8233

/-- The worker behind `pySplitlines`: `acc` is the current line, reversed. -/
def pySplitlinesAux (acc : List Char) : List Char → List (List Char)
  | [] => if acc.isEmpty then [] else [acc.reverse]
  | '\r' :: '\n' :: rest => acc.reverse :: pySplitlinesAux [] rest
  | c :: rest =>
    if isPyLineBreak c then acc.reverse :: pySplitlinesAux [] rest
    else pySplitlinesAux (c :: acc) rest

/-- Python's `str.splitlines()` on the character list of a string. -/
def pySplitlines (l : List Char) : List (List Char) :=
  pySplitlinesAux [] l

example : pySplitlines "a\nb".data = ["a".data, "b".data] := by decide
example : pySplitlines "a\r\nb\n".data = ["a".data, "b".data] := by decide
example : pySplitlines "a\n\nb".data = ["a".data, [], "b".data] := by decide
example : pySplitlines "".data = [] := by decide
example : pyStrip "  a b \n".data = "a b".data := by decide
example : pyReplace "```".data [] "x``` ```y".data = "x y".data := by decide
example : pyReplace "```".data [] "`````".data = "``".data := by decide
example : occursIn "```".data "a``b`c".data = false := by decide
example : occursIn "```".data "a```b".data = true := by decide

/-- The values `json.loads` produces. A number is kept in the decimal form
the text spelled it in, as `mantissa * 10 ^ exp10` (Python's int/float
distinction and float rounding are irrelevant to the pipeline: no claim
compares numbers parsed from different spellings). `nan`, `inf` and `ninf`
are the floats Python's decoder produces for the `NaN`, `Infinity` and
`-Infinity` constants it accepts by default. -/
inductive JValue where
  | null
  | bool (b : Bool)
  | num (mantissa : Int) (exp10 : Int)
  | str (s : List Char)
  | arr (elems : List JValue)
  | obj (members : List (List Char × JValue))
  | nan
  | inf
  | ninf

/-- JSON whitespace (what Python's decoder skips between tokens). -/
def isJsonWS (c : Char) : Bool :=
  c == ' ' || c == '\t' || c == '\n' || c == '\r'

def skipJsonWS (l : List Char) : List Char :=
  l.dropWhile isJsonWS

def isDigitChar (c : Char) : Bool :=
  '0' ≤ c && c ≤ '9'

def digitVal (c : Char) : Nat :=
  c.toNat - '0'.toNat

def digitsToNat (ds : List Char) : Nat :=
  ds.foldl (fun a c => 10 * a + digitVal c) 0

/-- One or more decimal digits, maximal munch. -/
def parseDigits (l : List Char) : Option (List Char × List Char) :=
  let ds := l.takeWhile isDigitChar
  if ds.isEmpty then none else some (ds, l.drop ds.length)

/-- A JSON number after the optional minus sign, per the strict grammar
`(0|[1-9][0-9]*)(\.[0-9]+)?([eE][+-]?[0-9]+)?` of Python's decoder; the
result is the number's decimal form `(mantissa, exp10)`. -/
def parseNumTail (l : List Char) : Option ((Int × Int) × List Char) := do
  let (intDs, l1) ←
    match l with
    | '0' :: rest => some (['0'], rest)
    | c :: _ => if isDigitChar c && c != '0' then parseDigits l else none
    | [] => none
  let (fracDs, l2) :=
    match l1 with
    | '.' :: rest =>
      match parseDigits rest with
      | some (ds, r) => (ds, r)
      | none => (([] : List Char), l1)
    | _ => ([], l1)
  let (expVal, l3) :=
    match l2 with
    | c :: rest =>
      if c == 'e' || c == 'E' then
        match rest with
        | '+' :: r2 =>
          match parseDigits r2 with
          | some (ds, r) => ((digitsToNat ds : Int), r)
          | none => ((0 : Int), l2)
        | '-' :: r2 =>
          match parseDigits r2 with
          | some (ds, r) => (-(digitsToNat ds : Int), r)
          | none => ((0 : Int), l2)
        | _ =>
          match parseDigits rest with
          | some (ds, r) => ((digitsToNat ds : Int), r)
          | none => ((0 : Int), l2)
      else ((0 : Int), l2)
    | [] => ((0 : Int), l2)
  some (((digitsToNat (intDs ++ fracDs) : Int), expVal - (fracDs.length : Int)), l3)

def hexVal (c : Char) : Option Nat :=
  let n := c.toNat
  if isDigitChar c then some (n - 48)
  else if 97 ≤ n && n ≤ 102 then some (n - 87)
  else if 65 ≤ n && n ≤ 70 then some (n - 55)
  else none

/-- Four hex digits of a `\uXXXX` escape. -/
def parseHex4 : List Char → Option (Nat × List Char)
  | a :: b :: c :: d :: rest => do
    let va ← hexVal a
    let vb ← hexVal b
    let vc ← hexVal c
    let vd ← hexVal d
    some (((va * 16 + vb) * 16 + vc) * 16 + vd, rest)
  | _ => none

/-- The body of a JSON string after the opening quote, per Python's strict
decoder: the listed escapes only, no raw control characters; a high
surrogate escape followed by a low one is combined (a lone surrogate is not
representable in `Char` and degrades to `Char.ofNat`'s fallback, a corner no
claim touches). Structurally recursive on fuel; `parseStringBody` supplies
enough. Returns the decoded text and the input after the closing quote. -/
def parseStringBodyF : Nat → List Char → Option (List Char × List Char)
  | 0, _ => none
  | _ + 1, [] => none
  | _ + 1, '"' :: rest => some ([], rest)
  | n + 1, '\\' :: e :: rest =>
    match e, rest with
    | 'u', a :: b :: c :: d :: rest2 => do
      let (v, _) ← parseHex4 [a, b, c, d]
      if 0xD800 ≤ v && v < 0xDC00 then
        match rest2 with
        | '\\' :: 'u' :: a2 :: b2 :: c2 :: d2 :: rest3 => do
          let (w, _) ← parseHex4 [a2, b2, c2, d2]
          if 0xDC00 ≤ w && w < 0xE000 then
            let (tail, after) ← parseStringBodyF n rest3
            some (Char.ofNat (0x10000 + (v - 0xD800) * 0x400 + (w - 0xDC00)) :: tail,
              after)
          else do
            let (tail, after) ← parseStringBodyF n rest2
            some (Char.ofNat v :: tail, after)
        | _ => do
          let (tail, after) ← parseStringBodyF n rest2
          some (Char.ofNat v :: tail, after)
      else do
        let (tail, after) ← parseStringBodyF n rest2
        some (Char.ofNat v :: tail, after)
    | _, _ => do
      let ch ←
        match e with
        | '"' => some '"'
        | '\\' => some '\\'
        | '/' => some '/'
        | 'b' => some (Char.ofNat 8)
        | 'f' => some (Char.ofNat 12)
        | 'n' => some '\n'
        | 'r' => some '\r'
        | 't' => some '\t'
        | _ => none
      let (tail, after) ← parseStringBodyF n rest
      some (ch :: tail, after)
  | n + 1, c :: rest =>
    if c.toNat < 0x20 then none
    else do
      let (tail, after) ← parseStringBodyF n rest
      some (c :: tail, after)

/-- The body of a JSON string after the opening quote (fuel instantiated). -/
def parseStringBody (l : List Char) : Option (List Char × List Char) :=
  parseStringBodyF (l.length + 1) l

/-- What one step of the JSON parser is asked to read. -/
inductive PMode where
  | value
  | elems
  | members

/-- What one step of the JSON parser hands back. -/
inductive POut where
  | val (v : JValue)
  | lst (vs : List JValue)
  | mem (ms : List (List Char × JValue))

/-- The recursive core of `json.loads`, structurally recursive on fuel.
`.value` reads one JSON value (leading whitespace skipped), including the
`NaN`, `Infinity` and `-Infinity` constants Python's decoder accepts by
default; `.elems` reads the comma-separated values of an array up to its
`]`, after the `[` and any first-element lookahead; `.members` reads the
members of an object up to its `}`. -/
def parseCore : Nat → PMode → List Char → Option (POut × List Char)
  | 0, _, _ => none
  | n + 1, PMode.value, l =>
    match skipJsonWS l with
    | '{' :: rest =>
      (match skipJsonWS rest with
      | '}' :: rest2 => some (POut.val (JValue.obj []), rest2)
      | rest2 =>
        match parseCore n PMode.members rest2 with
        | some (POut.mem ms, after) => some (POut.val (JValue.obj ms), after)
        | _ => none)
    | '[' :: rest =>
      (match skipJsonWS rest with
      | ']' :: rest2 => some (POut.val (JValue.arr []), rest2)
      | rest2 =>
        match parseCore n PMode.elems rest2 with
        | some (POut.lst vs, after) => some (POut.val (JValue.arr vs), after)
        | _ => none)
    | '"' :: rest =>
      (match parseStringBody rest with
      | some (s, after) => some (POut.val (JValue.str s), after)
      | none => none)
    | 't' :: 'r' :: 'u' :: 'e' :: rest => some (POut.val (JValue.bool true), rest)
    | 'f' :: 'a' :: 'l' :: 's' :: 'e' :: rest => some (POut.val (JValue.bool false), rest)
    | 'n' :: 'u' :: 'l' :: 'l' :: rest => some (POut.val JValue.null, rest)
    | 'N' :: 'a' :: 'N' :: rest => some (POut.val JValue.nan, rest)
    | 'I' :: 'n' :: 'f' :: 'i' :: 'n' :: 'i' :: 't' :: 'y' :: rest =>
      some (POut.val JValue.inf, rest)
    | '-' :: 'I' :: 'n' :: 'f' :: 'i' :: 'n' :: 'i' :: 't' :: 'y' :: rest =>
      some (POut.val JValue.ninf, rest)
    | '-' :: rest =>
      (match parseNumTail rest with
      | some ((m, e), after) => some (POut.val (JValue.num (-m) e), after)
      | none => none)
    | l2 =>
      (match parseNumTail l2 with
      | some ((m, e), after) => some (POut.val (JValue.num m e), after)
      | none => none)
  | n + 1, PMode.elems, l =>
    (match parseCore n PMode.value l with
    | some (POut.val v, after) =>
      (match skipJsonWS after with
      | ',' :: rest =>
        (match parseCore n PMode.elems rest with
        | some (POut.lst vs, after2) => some (POut.lst (v :: vs), after2)
        | _ => none)
      | ']' :: rest => some (POut.lst [v], rest)
      | _ => none)
    | _ => none)
  | n + 1, PMode.members, l =>
    (match skipJsonWS l with
    | '"' :: rest =>
      (match parseStringBody rest with
      | some (k, after) =>
        (match skipJsonWS after with
        | ':' :: rest2 =>
          (match parseCore n PMode.value rest2 with
          | some (POut.val v, after2) =>
            (match skipJsonWS after2 with
            | ',' :: rest3 =>
              (match parseCore n PMode.members rest3 with
              | some (POut.mem ms, after3) => some (POut.mem ((k, v) :: ms), after3)
              | _ => none)
            | '}' :: rest3 => some (POut.mem [(k, v)], rest3)
            | _ => none)
          | _ => none)
        | _ => none)
      | none => none)
    | _ => none)

/-- Python's `json.loads` on a character list: parse one value, then require
only whitespace to remain. `none` is a raised `JSONDecodeError`. -/
def jsonLoads (l : List Char) : Option JValue :=
  match parseCore (2 * l.length + 2) PMode.value l with
  | some (POut.val v, rest) => if (skipJsonWS rest).isEmpty then some v else none
  | _ => none

example : jsonLoads "NaN".data = some JValue.nan := rfl
example : jsonLoads "[-Infinity, Infinity]".data =
    some (JValue.arr [JValue.ninf, JValue.inf]) := rfl
example : jsonLoads "\x7b\"quality_score\": NaN\x7d".data =
    some (JValue.obj [("quality_score".data, JValue.nan)]) := rfl

/-- A run of the generation service: what `model.generate_content(prompt)`
does for each prompt in that run — `.ok text` is a response whose `.text`
is `text`, `.error msg` an exception whose `str()` is `msg`. -/
def Service : Type := String → Except String String

/-- The prompt `analyze_resume` builds (the f-string of src/main.py lines
45-57, whitespace included). -/
def analyze_prompt (resume_text : String) : String :=
  "\n    Analyze this resume and return ONLY a valid JSON object with exactly these fields:\n" ++
  "    - sections_detected: array of strings (sections found in the resume)\n" ++
  "    - missing_sections: array of strings (important sections that are missing)\n" ++
  "    - well_written_sections: array of strings (sections that are well-written)\n" ++
  "    - quality_score: number between 0-100 (overall resume quality)\n" ++
  "    - suggestions: array of strings (specific improvement suggestions)\n\n" ++
  "    Resume:\n    " ++ resume_text ++ "\n\n" ++
  "    Return ONLY the JSON object, no other text or explanation.\n    "

/-- The prompt `improve_resume` builds (src/main.py lines 67-78). -/
def improve_prompt (resume_text feedback : String) : String :=
  "\n    Improve this resume based on the feedback provided. Keep the candidate's experience intact\n" ++
  "    but improve clarity, grammar, formatting, and overall presentation.\n\n" ++
  "    Original Resume:\n    " ++ resume_text ++ "\n\n" ++
  "    Feedback Context:\n    " ++ feedback ++ "\n\n" ++
  "    Return the improved resume as clean, well-formatted text.\n    "

/-- The prompt `get_job_guidance` builds (src/main.py lines 88-99). -/
def guidance_prompt (improved_resume : String) : String :=
  "\n    Based on this improved resume, provide job search guidance including:\n" ++
  "    1) Recommended job titles to search for\n" ++
  "    2) Top companies in the candidate's field\n" ++
  "    3) Key job boards and websites to use\n" ++
  "    4) Networking tips specific to their industry\n\n" ++
  "    Resume:\n    " ++ improved_resume ++ "\n\n" ++
  "    Provide structured, actionable advice in markdown format.\n    "

/-- The in-band string `analyze_resume` substitutes when its service call
raises with message `e` (the f-string of src/main.py line 63). -/
def analyzeErrorText (e : String) : String :=
  "\x7b\"error\": \"Failed to analyze resume: " ++ e ++ "\"\x7d"

/-- src/main.py `analyze_resume`: send the analyze prompt; on success return
`response.text.strip()`, on any exception return the error-JSON string. -/
def analyze_resume (resume_text : String) (svc : Service) : String :=
  match svc (analyze_prompt resume_text) with
  | Except.ok t => String.mk (pyStrip t.data)
  | Except.error e => analyzeErrorText e

/-- src/main.py `improve_resume`: send the improve prompt; on success return
`response.text.strip()`, on any exception return the error text. -/
def improve_resume (resume_text feedback : String) (svc : Service) : String :=
  match svc (improve_prompt resume_text feedback) with
  | Except.ok t => String.mk (pyStrip t.data)
  | Except.error e => "Error improving resume: " ++ e

/-- src/main.py `get_job_guidance`: send the guidance prompt; on success
return `response.text.strip()`, on any exception return the error text. -/
def get_job_guidance (improved_resume : String) (svc : Service) : String :=
  match svc (guidance_prompt improved_resume) with
  | Except.ok t => String.mk (pyStrip t.data)
  | Except.error e => "Error generating job guidance: " ++ e

/-- The three values the run computes, in the order src/main.py lines
135-147 computes them. -/
structure PipelineRun where
  feedback : String
  improved : String
  guidance : String

/-- The stage sequencing of src/main.py lines 131-147: `feedback_raw`,
then `improved_resume` from it, then `job_guidance` from that. -/
def runPipeline (resume_text : String) (svc : Service) : PipelineRun :=
  let feedback_raw := analyze_resume resume_text svc
  let improved_resume := improve_resume resume_text feedback_raw svc
  let job_guidance := get_job_guidance improved_resume svc
  { feedback := feedback_raw, improved := improved_resume, guidance := job_guidance }

/-- The outcome of one button press after text extraction: `halted` is the
`st.error`/`st.stop()` path of src/main.py lines 123-125, taken before any
stage runs; `completed` carries the three stage results. -/
inductive AppResult where
  | halted
  | completed (run : PipelineRun)

/-- src/main.py lines 123-147: stop if the extracted text strips to empty,
else run the three stages in order. -/
def runApp (resume_text : String) (svc : Service) : AppResult :=
  if (pyStrip resume_text.data).isEmpty then AppResult.halted
  else AppResult.completed (runPipeline resume_text svc)

/-- The extractor chosen for an uploaded file name (src/main.py lines
118-121): the PDF path iff the name ends with the exact suffix ".pdf",
everything else to the DOCX path. -/
inductive Extractor where
  | pdf
  | docx
deriving DecidableEq

/-- Python's `str.endswith` on character lists. -/
def pyEndsWith (suffix l : List Char) : Bool :=
  suffix.isSuffixOf l

def extractorFor (name : String) : Extractor :=
  if pyEndsWith ".pdf".data name.data then Extractor.pdf else Extractor.docx

/-- The fence-stripping of src/main.py lines 162-168 applied to the already
stripped `raw_output`: if it starts with "```json", globally replace
"```json" and then "```" by nothing and strip; else if it starts with "```",
globally replace "```" by nothing and strip; else leave as is. -/
def stripFences (raw_output : List Char) : List Char :=
  if ("```json".data).isPrefixOf raw_output then
    pyStrip (pyReplace "```".data [] (pyReplace "```json".data [] raw_output))
  else if ("```".data).isPrefixOf raw_output then
    pyStrip (pyReplace "```".data [] raw_output)
  else raw_output

/-- Lines 162-168 in full: `feedback_raw.strip()` then the fence handling. -/
def normalizeFeedback (feedback_raw : String) : List Char :=
  stripFences (pyStrip feedback_raw.data)

/-- What line 170's `json.loads` receives and returns for a given raw
Stage-1 result. -/
def parsedFeedback (feedback_raw : String) : Option JValue :=
  jsonLoads (normalizeFeedback feedback_raw)

/-- Look up `key` in the members of a JSON object the way a Python dict
built by `json.loads` does: the last binding wins. -/
def jget (members : List (List Char × JValue)) (key : List Char) : Option JValue :=
  members.foldl (fun acc kv => if kv.1 = key then some kv.2 else acc) none

/-- `dict.get(key, default)`. -/
def jgetD (members : List (List Char × JValue)) (key : List Char) (dflt : JValue) :
    JValue :=
  (jget members key).getD dflt

/-- Whether Python's `len()` accepts the value (`str`, `list`, `dict` do;
numbers, booleans and `None` raise `TypeError`). -/
def pyHasLen : JValue → Bool
  | JValue.str _ => true
  | JValue.arr _ => true
  | JValue.obj _ => true
  | _ => false

/-- What the feedback section displays: the parsed JSON data, or the
non-fatal warning path (`st.warning` + `st.text_area` of lines 185-188)
carrying the raw Stage-1 output. -/
inductive FeedbackDisplay where
  | structured (data : JValue)
  | fallbackWarning (raw : String)

/-- src/main.py lines 160-188: parse the normalized feedback; display it as
structured data when `json.loads` succeeds AND the displayed metrics do not
raise (the value must be a dict for `.get`, and `len()` must accept the
`sections_detected` and `missing_sections` values, `[]` when absent);
any exception in the `try` block falls back to the warning with the raw
text. -/
def renderFeedback (feedback_raw : String) : FeedbackDisplay :=
  match parsedFeedback feedback_raw with
  | some (JValue.obj members) =>
    if pyHasLen (jgetD members "sections_detected".data (JValue.arr [])) &&
        pyHasLen (jgetD members "missing_sections".data (JValue.arr [])) then
      FeedbackDisplay.structured (JValue.obj members)
    else FeedbackDisplay.fallbackWarning feedback_raw
  | some _ => FeedbackDisplay.fallbackWarning feedback_raw
  | none => FeedbackDisplay.fallbackWarning feedback_raw

/-- src/main.py `save_docx` (lines 36-40): the paragraphs of the produced
document are `text.strip().splitlines()`, in order. -/
def save_docx (text : String) : List (List Char) :=
  pySplitlines (pyStrip text.data)

example : renderFeedback "\x7b\"quality_score\": NaN\x7d" =
    FeedbackDisplay.structured
      (JValue.obj [("quality_score".data, JValue.nan)]) := rfl

/-! ### Library of facts about the embedded string primitives -/

theorem occursIn_cons (pat : List Char) (c : Char) (rest : List Char) :
    occursIn pat (c :: rest) = (pat.isPrefixOf (c :: rest) || occursIn pat rest) :=
  rfl

theorem occursIn_cons_false {pat : List Char} {c : Char} {rest : List Char}
    (h : occursIn pat (c :: rest) = false) :
    pat.isPrefixOf (c :: rest) = false ∧ occursIn pat rest = false := by
  rw [occursIn_cons] at h
  exact ⟨by cases hp : pat.isPrefixOf (c :: rest) <;> simp [hp] at h ⊢,
    by cases ho : occursIn pat rest <;> simp [ho] at h ⊢⟩

theorem occursIn_tail {pat : List Char} {c : Char} {rest : List Char}
    (h : occursIn pat rest = true) : occursIn pat (c :: rest) = true := by
  rw [occursIn_cons, h, Bool.or_true]

theorem occursIn_of_isPrefixOf {pat l : List Char}
    (h : pat.isPrefixOf l = true) : occursIn pat l = true := by
  cases l with
  | nil => cases pat with
    | nil => rfl
    | cons p ps => simp [List.isPrefixOf] at h
  | cons c rest => rw [occursIn_cons, h, Bool.true_or]

theorem isPrefixOf_false_of_occursIn_false {pat l : List Char}
    (h : occursIn pat l = false) : pat.isPrefixOf l = false := by
  cases hp : pat.isPrefixOf l
  · rfl
  · rw [occursIn_of_isPrefixOf hp] at h
    cases h

/-- `isPrefixOf` through an explicit `IsPrefix` of the larger list. -/
theorem isPrefixOf_of_isPrefixOf_of_prefix {pat l₁ l₂ : List Char}
    (hl : l₁ <+: l₂) (h : pat.isPrefixOf l₁ = true) : pat.isPrefixOf l₂ = true :=
  List.isPrefixOf_iff_prefix.mpr ((List.isPrefixOf_iff_prefix.mp h).trans hl)

/-- The result of `pyDropTrailWS` is a prefix of its input. -/
theorem pyDropTrailWS_prefix (l : List Char) : pyDropTrailWS l <+: l := by
  induction l with
  | nil => exact List.prefix_refl []
  | cons c rest ih =>
    rw [pyDropTrailWS]
    by_cases h : (pyDropTrailWS rest).isEmpty && isPyWS c
    · rw [if_pos h]
      exact List.nil_prefix
    · rw [if_neg h]
      obtain ⟨t, ht⟩ := ih
      exact ⟨t, by rw [List.cons_append, ht]⟩

theorem occursIn_dropWhile_false {pat : List Char} {p : Char → Bool} {l : List Char}
    (h : occursIn pat l = false) : occursIn pat (l.dropWhile p) = false := by
  induction l with
  | nil => exact h
  | cons c rest ih =>
    rw [List.dropWhile_cons]
    obtain ⟨-, hrest⟩ := occursIn_cons_false h
    by_cases hc : p c = true
    · rw [if_pos hc]
      exact ih hrest
    · rw [if_neg hc]
      exact h

theorem occursIn_pyDropTrailWS_false {pat l : List Char}
    (h : occursIn pat l = false) : occursIn pat (pyDropTrailWS l) = false := by
  induction l with
  | nil => exact h
  | cons c rest ih =>
    obtain ⟨hpre, hrest⟩ := occursIn_cons_false h
    rw [pyDropTrailWS]
    by_cases hc : (pyDropTrailWS rest).isEmpty && isPyWS c
    · rw [if_pos hc]
      cases pat with
      | nil =>
        rw [show occursIn ([] : List Char) (c :: rest) = true from rfl] at h
        cases h
      | cons p ps => rfl
    · rw [if_neg hc, occursIn_cons]
      have h1 : pat.isPrefixOf (c :: pyDropTrailWS rest) = false := by
        cases hp : pat.isPrefixOf (c :: pyDropTrailWS rest)
        · rfl
        · have h2 : pat.isPrefixOf (c :: rest) = true :=
            isPrefixOf_of_isPrefixOf_of_prefix
              (by
                obtain ⟨t, ht⟩ := pyDropTrailWS_prefix rest
                exact ⟨t, by rw [List.cons_append, ht]⟩)
              hp
          rw [h2] at hpre
          cases hpre
      rw [h1, ih hrest, Bool.or_false]

theorem occursIn_pyStrip_false {pat l : List Char}
    (h : occursIn pat l = false) : occursIn pat (pyStrip l) = false :=
  occursIn_pyDropTrailWS_false (occursIn_dropWhile_false h)

-- lemmas under test
theorem pyDropTrailWS_append_nonws {b : Char} (hb : isPyWS b = false)
    (x : List Char) : pyDropTrailWS (x ++ [b]) = x ++ [b] := by
  induction x with
  | nil => simp [pyDropTrailWS, hb]
  | cons c x ih =>
    have h2 : (x ++ [b]).isEmpty = false := by cases x <;> rfl
    simp only [List.cons_append, pyDropTrailWS, List.append_eq]
    rw [ih]
    simp [h2]

theorem pyDropTrailWS_append_ws {b : Char} (hb : isPyWS b = true)
    (x : List Char) : pyDropTrailWS (x ++ [b]) = pyDropTrailWS x := by
  induction x with
  | nil => simp [pyDropTrailWS, hb]
  | cons c x ih =>
    simp only [List.cons_append, pyDropTrailWS, List.append_eq]
    rw [ih]

theorem pyStrip_cons_ws {c : Char} (hc : isPyWS c = true) (l : List Char) :
    pyStrip (c :: l) = pyStrip l := by
  rw [pyStrip, pyStrip, List.dropWhile_cons, if_pos hc]

theorem pyStrip_append_ws {b : Char} (hb : isPyWS b = true) (l : List Char) :
    pyStrip (l ++ [b]) = pyStrip l := by
  induction l with
  | nil =>
    rw [List.nil_append, pyStrip, pyStrip, List.dropWhile_cons, if_pos hb]
  | cons c l ih =>
    by_cases hc : isPyWS c = true
    · rw [List.cons_append, pyStrip_cons_ws hc, pyStrip_cons_ws hc, ih]
    · have hc' : isPyWS c = false := by
        cases h : isPyWS c
        · rfl
        · exact absurd h hc
      rw [List.cons_append, pyStrip, pyStrip, List.dropWhile_cons, if_neg hc,
        List.dropWhile_cons, if_neg hc, ← List.cons_append,
        pyDropTrailWS_append_ws hb]

theorem pyStrip_eq_self {a b : Char} (ha : isPyWS a = false)
    (hb : isPyWS b = false) (mid : List Char) :
    pyStrip (a :: (mid ++ [b])) = a :: (mid ++ [b]) := by
  rw [pyStrip, List.dropWhile_cons, if_neg (by rw [ha]; exact Bool.false_ne_true),
    ← List.cons_append, pyDropTrailWS_append_nonws hb]

theorem isPrefixOf_append_self (p l : List Char) : p.isPrefixOf (p ++ l) = true := by
  induction p with
  | nil => simp [List.isPrefixOf]
  | cons a p ih => simp [List.cons_append, List.isPrefixOf, ih]

theorem isPrefixOf_append_of_le_length {pat x : List Char}
    (h : pat.length ≤ x.length) (y : List Char) :
    pat.isPrefixOf (x ++ y) = pat.isPrefixOf x := by
  induction pat generalizing x with
  | nil => simp [List.isPrefixOf]
  | cons p ps ih =>
    cases x with
    | nil => exact absurd h (by simp)
    | cons a x =>
      simp only [List.cons_append, List.isPrefixOf, List.append_eq]
      rw [ih (Nat.le_of_succ_le_succ h)]

theorem pyReplaceF_nil (pat repl : List Char) (n : Nat) :
    pyReplaceF pat repl n [] = [] := by
  cases n <;> rfl

theorem pyReplaceF_cons_neg {pat : List Char} (repl : List Char) {c : Char}
    {rest : List Char} (h : pat.isPrefixOf (c :: rest) = false) (n : Nat) :
    pyReplaceF pat repl (n + 1) (c :: rest) = c :: pyReplaceF pat repl n rest := by
  rw [pyReplaceF, h, Bool.and_false, if_neg Bool.false_ne_true]

theorem pyReplaceF_consume {p : Char} {ps : List Char} (repl : List Char)
    (l : List Char) (n : Nat) :
    pyReplaceF (p :: ps) repl (n + 1) (p :: (ps ++ l)) =
      repl ++ pyReplaceF (p :: ps) repl n l := by
  have hpre : (p :: ps).isPrefixOf (p :: (ps ++ l)) = true := by
    rw [← List.cons_append]
    exact isPrefixOf_append_self (p :: ps) l
  have hdrop : List.drop (p :: ps).length (p :: (ps ++ l)) = l := by
    rw [← List.cons_append]
    exact List.drop_left (p :: ps) l
  rw [pyReplaceF, hpre, hdrop]
  simp

theorem pyReplaceF_cons_pos {p : Char} {ps : List Char} (repl : List Char) {c : Char}
    {rest : List Char} (h : (p :: ps).isPrefixOf (c :: rest) = true) (n : Nat) :
    pyReplaceF (p :: ps) repl (n + 1) (c :: rest) =
      repl ++ pyReplaceF (p :: ps) repl n (List.drop (p :: ps).length (c :: rest)) := by
  rw [pyReplaceF, h]
  simp

/-- A prefix of an `isPrefixOf`-prefix is one. -/
theorem isPrefixOf_of_append_isPrefixOf {p q x : List Char}
    (h : (p ++ q).isPrefixOf x = true) : p.isPrefixOf x = true :=
  List.isPrefixOf_iff_prefix.mpr
    ((List.prefix_append p q).trans (List.isPrefixOf_iff_prefix.mp h))

theorem bt7_isPrefixOf_imp_bt3 {x : List Char}
    (h : ("```json".data).isPrefixOf x = true) : ("```".data).isPrefixOf x = true :=
  isPrefixOf_of_append_isPrefixOf
    (p := "```".data) (q := "json".data) h

theorem occursIn_bt7_false {x : List Char}
    (h : occursIn "```".data x = false) : occursIn "```json".data x = false := by
  induction x with
  | nil => rfl
  | cons c rest ih =>
    obtain ⟨hpre, hrest⟩ := occursIn_cons_false h
    rw [occursIn_cons, ih hrest, Bool.or_false]
    cases hp : ("```json".data).isPrefixOf (c :: rest)
    · rfl
    · rw [bt7_isPrefixOf_imp_bt3 hp] at hpre
      cases hpre

/-- A pattern without a newline is never a prefix across a newline that sits
before the pattern could end. -/
theorem noNlPre : ∀ (x pat t : List Char), ('\n' ∈ pat → False) →
    x.length < pat.length → pat.isPrefixOf (x ++ '\n' :: t) = false := by
  intro x
  induction x with
  | nil =>
    intro pat t hmem hlen
    cases pat with
    | nil => exact absurd hlen (by simp)
    | cons p ps =>
      have hp : (p == '\n') = false := by
        cases hpe : p == '\n'
        · rfl
        · exact absurd (by rw [eq_of_beq hpe]; exact List.mem_cons_self '\n' ps) hmem
      simp only [List.nil_append, List.isPrefixOf]
      rw [hp, Bool.false_and]
  | cons c x ih =>
    intro pat t hmem hlen
    cases pat with
    | nil => exact absurd hlen (by simp)
    | cons p ps =>
      simp only [List.cons_append, List.isPrefixOf, List.append_eq]
      rw [ih ps t (fun hm => hmem (List.mem_cons_of_mem p hm))
        (Nat.lt_of_succ_lt_succ hlen), Bool.and_false]

/-- Global replacement of "```" by nothing leaves a marker-free payload and
the closing fence's newline intact: the heart of the fence-stripping
equalities. -/
theorem pyReplaceF_bt3_clean : ∀ (s : List Char) (n : Nat),
    occursIn "```".data s = false → s.length + 4 ≤ n →
    pyReplaceF "```".data [] n (s ++ '\n' :: "```".data) = s ++ ['\n'] := by
  intro s
  induction s with
  | nil =>
    intro n _ hn
    obtain ⟨m, rfl⟩ : ∃ m, n = m + 4 := ⟨n - 4, by omega⟩
    rw [List.nil_append, List.nil_append]
    rw [pyReplaceF_cons_neg [] (by rfl) (m + 3)]
    have hcons : pyReplaceF "```".data [] (m + 3) "```".data =
        [] ++ pyReplaceF "```".data [] (m + 2) [] :=
      @pyReplaceF_consume '`' ['`', '`'] [] [] (m + 2)
    rw [hcons, pyReplaceF_nil]
    rfl
  | cons c s ih =>
    intro n h hn
    obtain ⟨m, rfl⟩ : ∃ m, n = m + 1 := ⟨n - 1, by omega⟩
    obtain ⟨hpre, hs⟩ := occursIn_cons_false h
    have hpre2 : ("```".data).isPrefixOf ((c :: s) ++ '\n' :: "```".data) = false := by
      by_cases h3 : ("```".data : List Char).length ≤ (c :: s).length
      · rw [isPrefixOf_append_of_le_length h3, hpre]
      · exact noNlPre (c :: s) "```".data "```".data (by decide) (by omega)
    rw [List.cons_append] at hpre2 ⊢
    rw [pyReplaceF_cons_neg [] hpre2 m]
    rw [ih m hs (by simp at hn; omega)]
    simp

/-- The "```json" replacement pass is the identity on a fence-free payload
followed by the closing fence: no "```json" occurrence exists there. -/
theorem pyReplaceF_bt7_noop : ∀ (s : List Char) (n : Nat),
    occursIn "```".data s = false → s.length + 4 ≤ n →
    pyReplaceF "```json".data [] n (s ++ '\n' :: "```".data) =
      s ++ '\n' :: "```".data := by
  intro s
  induction s with
  | nil =>
    intro n _ hn
    obtain ⟨m, rfl⟩ : ∃ m, n = m + 4 := ⟨n - 4, by omega⟩
    rw [List.nil_append]
    rw [pyReplaceF_cons_neg [] (by rfl) (m + 3)]
    rw [show ("```".data : List Char) = '`' :: '`' :: '`' :: ([] : List Char) from rfl]
    rw [pyReplaceF_cons_neg [] (by rfl) (m + 2)]
    rw [pyReplaceF_cons_neg [] (by rfl) (m + 1)]
    rw [pyReplaceF_cons_neg [] (by rfl) m]
    rw [pyReplaceF_nil]
  | cons c s ih =>
    intro n h hn
    obtain ⟨m, rfl⟩ : ∃ m, n = m + 1 := ⟨n - 1, by omega⟩
    obtain ⟨hpre, hs⟩ := occursIn_cons_false h
    have hpre2 : ("```json".data).isPrefixOf ((c :: s) ++ '\n' :: "```".data) = false := by
      by_cases h7 : ("```json".data : List Char).length ≤ (c :: s).length
      · rw [isPrefixOf_append_of_le_length h7]
        cases hp : ("```json".data).isPrefixOf (c :: s)
        · rfl
        · rw [bt7_isPrefixOf_imp_bt3 hp] at hpre
          cases hpre
      · exact noNlPre (c :: s) "```json".data "```".data (by decide) (by omega)
    rw [List.cons_append] at hpre2 ⊢
    rw [pyReplaceF_cons_neg [] hpre2 m]
    rw [ih m hs (by simp at hn; omega)]

/-- If "```" is not a prefix of `c :: rest`, it is not a prefix of
`c` followed by the replaced rest either: replacement never manufactures a
new marker at the front. -/
theorem noPre3 : ∀ (n : Nat) (c : Char) (rest : List Char), rest.length ≤ n →
    ("```".data).isPrefixOf (c :: rest) = false →
    ("```".data).isPrefixOf (c :: pyReplaceF "```".data [] n rest) = false := by
  intro n c rest hn hp
  by_cases hc : c = '`'
  · subst hc
    have hp2 : (['`', '`'] : List Char).isPrefixOf rest = false := by
      simp only [List.isPrefixOf, beq_self_eq_true, Bool.true_and] at hp
      exact hp
    cases rest with
    | nil =>
      rw [pyReplaceF_nil]
      exact hp
    | cons d rest2 =>
      by_cases hd : d = '`'
      · subst hd
        have hp3 : (['`'] : List Char).isPrefixOf rest2 = false := by
          simp only [List.isPrefixOf, beq_self_eq_true, Bool.true_and] at hp2
          exact hp2
        cases rest2 with
        | nil =>
          obtain ⟨m, rfl⟩ : ∃ m, n = m + 1 := ⟨n - 1, by simp at hn; omega⟩
          rw [pyReplaceF_cons_neg [] (by rfl) m, pyReplaceF_nil]
          exact hp
        | cons e rest3 =>
          have he : ('`' == e) = false := by
            simp only [List.isPrefixOf] at hp3
            cases hb : ('`' == e)
            · rfl
            · rw [hb, Bool.true_and] at hp3
              cases hp3
          obtain ⟨m, rfl⟩ : ∃ m, n = m + 2 := ⟨n - 2, by simp at hn; omega⟩
          rw [pyReplaceF_cons_neg [] (by
            simp only [List.isPrefixOf, beq_self_eq_true, Bool.true_and]
            rw [he, Bool.false_and]) (m + 1)]
          rw [pyReplaceF_cons_neg [] (by
            simp only [List.isPrefixOf]
            rw [he, Bool.false_and]) m]
          simp only [List.isPrefixOf, beq_self_eq_true, Bool.true_and]
          rw [he, Bool.false_and]
      · have hd2 : ('`' == d) = false := by
          cases hb : ('`' == d)
          · rfl
          · exact absurd (eq_of_beq hb).symm hd
        cases rest2 with
        | nil =>
          obtain ⟨m, rfl⟩ : ∃ m, n = m + 1 := ⟨n - 1, by simp at hn; omega⟩
          rw [pyReplaceF_cons_neg [] (by
            simp only [List.isPrefixOf]
            rw [hd2, Bool.false_and]) m]
          simp only [List.isPrefixOf, beq_self_eq_true, Bool.true_and]
          rw [hd2, Bool.false_and]
        | cons e rest3 =>
          obtain ⟨m, rfl⟩ : ∃ m, n = m + 1 := ⟨n - 1, by simp at hn; omega⟩
          rw [pyReplaceF_cons_neg [] (by
            simp only [List.isPrefixOf]
            rw [hd2, Bool.false_and]) m]
          simp only [List.isPrefixOf, beq_self_eq_true, Bool.true_and]
          rw [hd2, Bool.false_and]
  · have hc2 : ('`' == c) = false := by
      cases hb : ('`' == c)
      · rfl
      · exact absurd (eq_of_beq hb).symm hc
    simp only [List.isPrefixOf]
    rw [hc2, Bool.false_and]

/-- After globally replacing "```" by nothing, no "```" occurrence remains
anywhere in the result: the scan consumes every maximal run of backticks
down to a remainder of at most two. -/
theorem pyReplaceF_bt3_noTriple : ∀ (n : Nat), ∀ (l : List Char), l.length ≤ n →
    occursIn "```".data (pyReplaceF "```".data [] n l) = false := by
  intro n
  induction n using Nat.strong_induction_on with
  | _ n ihn =>
    intro l hl
    cases l with
    | nil =>
      rw [pyReplaceF_nil]
      rfl
    | cons c rest =>
      obtain ⟨m, rfl⟩ : ∃ m, n = m + 1 := ⟨n - 1, by simp at hl; omega⟩
      cases hp : ("```".data).isPrefixOf (c :: rest) with
      | true =>
        rw [pyReplaceF_cons_pos [] hp m, List.nil_append]
        refine ihn m (by omega) _ ?_
        rw [List.length_drop, show ("```".data : List Char).length = 3 from rfl]
        simp only [List.length_cons] at hl ⊢
        omega
      | false =>
        rw [pyReplaceF_cons_neg [] hp m, occursIn_cons]
        rw [noPre3 m c rest (by simp at hl; omega) hp]
        rw [ihn m (by omega) rest (by simp at hl; omega)]
        rfl

/-- One "```json" replacement pass over the whole json-tagged fenced
response: the leading marker is consumed, nothing else changes. -/
theorem bt7_pass (L : List Char) (h : occursIn "```".data L = false) :
    ∀ n, L.length + 6 ≤ n →
    pyReplaceF "```json".data [] n
      ('`' :: (['`', '`', 'j', 's', 'o', 'n'] ++ ('\n' :: (L ++ '\n' :: "```".data)))) =
      '\n' :: (L ++ '\n' :: "```".data) := by
  intro n hn
  obtain ⟨m, rfl⟩ : ∃ m, n = m + 1 := ⟨n - 1, by omega⟩
  have step1 := @pyReplaceF_consume '`' ['`', '`', 'j', 's', 'o', 'n'] []
    ('\n' :: (L ++ '\n' :: "```".data)) m
  rw [show ('`' :: ['`', '`', 'j', 's', 'o', 'n'] : List Char) = "```json".data from rfl]
    at step1
  rw [step1, List.nil_append]
  obtain ⟨k, rfl⟩ : ∃ k, m = k + 1 := ⟨m - 1, by omega⟩
  rw [pyReplaceF_cons_neg [] (by rfl) k]
  rw [pyReplaceF_bt7_noop L k h (by omega)]

/-- One "```" replacement pass over the whole untagged fenced response:
the leading marker is consumed, the payload passes, the closing fence goes. -/
theorem bt3_pass (L : List Char) (h : occursIn "```".data L = false) :
    ∀ n, L.length + 6 ≤ n →
    pyReplaceF "```".data [] n
      ('`' :: (['`', '`'] ++ ('\n' :: (L ++ '\n' :: "```".data)))) =
      '\n' :: (L ++ ['\n']) := by
  intro n hn
  obtain ⟨m, rfl⟩ : ∃ m, n = m + 1 := ⟨n - 1, by omega⟩
  have step1 := @pyReplaceF_consume '`' ['`', '`'] []
    ('\n' :: (L ++ '\n' :: "```".data)) m
  rw [show ('`' :: ['`', '`'] : List Char) = "```".data from rfl] at step1
  rw [step1, List.nil_append]
  obtain ⟨k, rfl⟩ : ∃ k, m = k + 1 := ⟨m - 1, by omega⟩
  rw [pyReplaceF_cons_neg [] (by rfl) k]
  rw [pyReplaceF_bt3_clean L k h (by omega)]

/-- The "```" replacement pass applied after the "```json" pass. -/
theorem bt3_after_pass (L : List Char) (h : occursIn "```".data L = false) :
    ∀ n, L.length + 5 ≤ n →
    pyReplaceF "```".data [] n ('\n' :: (L ++ '\n' :: "```".data)) =
      '\n' :: (L ++ ['\n']) := by
  intro n hn
  obtain ⟨k, rfl⟩ : ∃ k, n = k + 1 := ⟨n - 1, by omega⟩
  rw [pyReplaceF_cons_neg [] (by rfl) k]
  rw [pyReplaceF_bt3_clean L k h (by omega)]

/-- A response with no "```" anywhere is passed to `json.loads` exactly
as stripped: neither fence branch fires. -/
theorem normalizeFeedback_no_fence (s : String)
    (h : occursIn "```".data s.data = false) :
    normalizeFeedback s = pyStrip s.data := by
  rw [normalizeFeedback, stripFences]
  have h2 : ("```".data).isPrefixOf (pyStrip s.data) = false :=
    isPrefixOf_false_of_occursIn_false (occursIn_pyStrip_false h)
  have h1 : ("```json".data).isPrefixOf (pyStrip s.data) = false := by
    cases hp : ("```json".data).isPrefixOf (pyStrip s.data)
    · rfl
    · rw [bt7_isPrefixOf_imp_bt3 hp] at h2
      cases h2
  rw [if_neg (by rw [h1]; exact Bool.false_ne_true)]
  rw [if_neg (by rw [h2]; exact Bool.false_ne_true)]

/-- Normalizing the json-tagged fenced wrap of a fence-free response gives
back the stripped response. -/
theorem normalizeFeedback_fence_json (s : String)
    (h : occursIn "```".data s.data = false) :
    normalizeFeedback ("```json\n" ++ s ++ "\n```") = pyStrip s.data := by
  have hd1 : ("```json\n" ++ s ++ "\n```").data
      = '`' :: ((['`', '`', 'j', 's', 'o', 'n', '\n'] ++ s.data ++ ['\n', '`', '`']) ++
        ['`']) := by
    rw [String.data_append, String.data_append]
    rw [show "```json\n".data = (['`', '`', '`', 'j', 's', 'o', 'n', '\n'] : List Char)
      from rfl]
    rw [show "\n```".data = (['\n', '`', '`', '`'] : List Char) from rfl]
    simp
  have hd2 : ("```json\n" ++ s ++ "\n```").data
      = '`' :: (['`', '`', 'j', 's', 'o', 'n'] ++
        ('\n' :: (s.data ++ '\n' :: "```".data))) := by
    rw [String.data_append, String.data_append]
    rw [show "```json\n".data = (['`', '`', '`', 'j', 's', 'o', 'n', '\n'] : List Char)
      from rfl]
    rw [show "\n```".data = (['\n', '`', '`', '`'] : List Char) from rfl]
    rw [show ("```".data : List Char) = ['`', '`', '`'] from rfl]
    simp
  have hstrip : pyStrip ("```json\n" ++ s ++ "\n```").data
      = ("```json\n" ++ s ++ "\n```").data := by
    rw [hd1]
    exact pyStrip_eq_self (by decide) (by decide) _
  have hlen : ("```json\n" ++ s ++ "\n```").data.length = s.data.length + 12 := by
    rw [hd2]
    simp
  have hpre7 : ("```json".data).isPrefixOf ("```json\n" ++ s ++ "\n```").data = true := by
    rw [hd2]
    rfl
  have hinner : pyReplace "```json".data [] ("```json\n" ++ s ++ "\n```").data
      = '\n' :: (s.data ++ '\n' :: "```".data) := by
    rw [pyReplace, hlen, hd2]
    exact bt7_pass s.data h (s.data.length + 12) (by omega)
  have houter : pyReplace "```".data [] ('\n' :: (s.data ++ '\n' :: "```".data))
      = '\n' :: (s.data ++ ['\n']) := by
    rw [pyReplace]
    rw [show ('\n' :: (s.data ++ '\n' :: "```".data)).length = s.data.length + 5
      from by simp]
    exact bt3_after_pass s.data h _ (by omega)
  rw [normalizeFeedback, hstrip, stripFences, if_pos hpre7, hinner, houter]
  rw [pyStrip_cons_ws (by decide), pyStrip_append_ws (by decide)]

/-- Normalizing the untagged fenced wrap of a fence-free response gives
back the stripped response. -/
theorem normalizeFeedback_fence_plain (s : String)
    (h : occursIn "```".data s.data = false) :
    normalizeFeedback ("```\n" ++ s ++ "\n```") = pyStrip s.data := by
  have hd1 : ("```\n" ++ s ++ "\n```").data
      = '`' :: ((['`', '`', '\n'] ++ s.data ++ ['\n', '`', '`']) ++ ['`']) := by
    rw [String.data_append, String.data_append]
    rw [show "```\n".data = (['`', '`', '`', '\n'] : List Char) from rfl]
    rw [show "\n```".data = (['\n', '`', '`', '`'] : List Char) from rfl]
    simp
  have hd2 : ("```\n" ++ s ++ "\n```").data
      = '`' :: (['`', '`'] ++ ('\n' :: (s.data ++ '\n' :: "```".data))) := by
    rw [String.data_append, String.data_append]
    rw [show "```\n".data = (['`', '`', '`', '\n'] : List Char) from rfl]
    rw [show "\n```".data = (['\n', '`', '`', '`'] : List Char) from rfl]
    rw [show ("```".data : List Char) = ['`', '`', '`'] from rfl]
    simp
  have hstrip : pyStrip ("```\n" ++ s ++ "\n```").data
      = ("```\n" ++ s ++ "\n```").data := by
    rw [hd1]
    exact pyStrip_eq_self (by decide) (by decide) _
  have hlen : ("```\n" ++ s ++ "\n```").data.length = s.data.length + 8 := by
    rw [hd2]
    simp
  have hpre7 : ("```json".data).isPrefixOf ("```\n" ++ s ++ "\n```").data = false := by
    rw [hd2]
    rfl
  have hpre3 : ("```".data).isPrefixOf ("```\n" ++ s ++ "\n```").data = true := by
    rw [hd2]
    rfl
  have hinner : pyReplace "```".data [] ("```\n" ++ s ++ "\n```").data
      = '\n' :: (s.data ++ ['\n']) := by
    rw [pyReplace, hlen, hd2]
    exact bt3_pass s.data h (s.data.length + 8) (by omega)
  rw [normalizeFeedback, hstrip, stripFences]
  rw [if_neg (by rw [hpre7]; exact Bool.false_ne_true)]
  rw [if_pos hpre3, hinner]
  rw [pyStrip_cons_ws (by decide), pyStrip_append_ws (by decide)]

theorem pyReplace_bt3_noTriple (l : List Char) :
    occursIn "```".data (pyReplace "```".data [] l) = false := by
  rw [pyReplace]
  exact pyReplaceF_bt3_noTriple l.length l le_rfl

theorem pyStrip_all_ws {l : List Char} (h : l.all isPyWS = true) :
    pyStrip l = [] := by
  rw [pyStrip, List.dropWhile_eq_nil_iff.mpr]
  · rfl
  · intro x hx
    exact List.all_eq_true.mp h x hx

theorem append_ne_empty_left {a : String} (b : String) (h : a.data ≠ []) :
    a ++ b ≠ "" := by
  intro heq
  apply h
  have hd := congrArg String.data heq
  rw [String.data_append] at hd
  exact (List.append_eq_nil.mp hd).1

/-- The feedback section shows either the parsed JSON value as structured
data or the raw output with the warning: the two arms of the try/except. -/
theorem renderFeedback_cases (fb : String) :
    (∃ d, parsedFeedback fb = some d ∧
        renderFeedback fb = FeedbackDisplay.structured d) ∨
      renderFeedback fb = FeedbackDisplay.fallbackWarning fb := by
  cases hp : parsedFeedback fb with
  | none =>
    right
    simp only [renderFeedback, hp]
  | some d =>
    cases d with
    | obj members =>
      by_cases hlen :
          (pyHasLen (jgetD members "sections_detected".data (JValue.arr [])) &&
            pyHasLen (jgetD members "missing_sections".data (JValue.arr []))) = true
      · left
        exact ⟨JValue.obj members, rfl, by simp only [renderFeedback, hp]; rw [if_pos hlen]⟩
      · right
        simp only [renderFeedback, hp]
        rw [if_neg hlen]
    | null => right; simp only [renderFeedback, hp]
    | bool b => right; simp only [renderFeedback, hp]
    | num m e => right; simp only [renderFeedback, hp]
    | str s => right; simp only [renderFeedback, hp]
    | arr elems => right; simp only [renderFeedback, hp]
    | nan => right; simp only [renderFeedback, hp]
    | inf => right; simp only [renderFeedback, hp]
    | ninf => right; simp only [renderFeedback, hp]

/-- Parse failure lands in the warning arm with the raw text. -/
theorem renderFeedback_of_parse_none {fb : String} (h : parsedFeedback fb = none) :
    renderFeedback fb = FeedbackDisplay.fallbackWarning fb := by
  simp only [renderFeedback, h]

/-! ### The claims -/

/-- The property claim C1 states, formalized as written: in every run with
non-empty extracted text in which Stage 1 fails — the service call raises,
or the response text fails JSON parsing after fence-stripping — the
feedback shown is the raw-text warning fallback, and the run completes. -/
def ClaimC1 : Prop :=
  ∀ (resume_text : String) (svc : Service), pyStrip resume_text.data ≠ [] →
    ((∃ e, svc (analyze_prompt resume_text) = Except.error e) ∨
      parsedFeedback (analyze_resume resume_text svc) = none) →
    renderFeedback (analyze_resume resume_text svc) =
        FeedbackDisplay.fallbackWarning (analyze_resume resume_text svc) ∧
      runApp resume_text svc = AppResult.completed (runPipeline resume_text svc)

/-- C1 fails on the code: when the service call raises (message "boom"),
`analyze_resume` substitutes the error-JSON string, which parses, so the
feedback section shows structured data and no warning. -/
theorem c1_counterexample : ¬ ClaimC1 := by
  intro hcl
  have h := (hcl "John Doe" (fun _ => Except.error "boom") (by decide)
    (Or.inl ⟨"boom", rfl⟩)).1
  rw [show renderFeedback (analyze_resume "John Doe" (fun _ => Except.error "boom")) =
      FeedbackDisplay.structured (JValue.obj [("error".data,
        JValue.str "Failed to analyze resume: boom".data)]) from rfl] at h
  exact FeedbackDisplay.noConfusion h

/-- C1 (amended): for every run in which the Stage-1 response text is not
valid JSON after fence-stripping, the feedback shown to the caller is the
raw response text via the non-fatal warning arm, and the pipeline does not
abort (with non-empty text the run still completes all three stages); a
service exception is instead converted to the in-band error-JSON string,
which is shown as structured feedback whenever it parses. -/
theorem c1_parse_failure_falls_back :
    ∀ (resume_text : String) (svc : Service),
      parsedFeedback (analyze_resume resume_text svc) = none →
      renderFeedback (analyze_resume resume_text svc) =
          FeedbackDisplay.fallbackWarning (analyze_resume resume_text svc) ∧
        (pyStrip resume_text.data ≠ [] →
          runApp resume_text svc = AppResult.completed (runPipeline resume_text svc)) ∧
        (∀ e, svc (analyze_prompt resume_text) = Except.error e →
          analyze_resume resume_text svc = analyzeErrorText e) := by
  intro resume_text svc h
  refine ⟨renderFeedback_of_parse_none h, ?_, ?_⟩
  · intro hne
    rw [runApp, if_neg (fun hc => hne (List.isEmpty_iff.mp hc))]
  · intro e he
    simp only [analyze_resume, he]

theorem c1_witness :
    renderFeedback (analyze_resume "John Doe" (fun _ => Except.ok "Sorry, I cannot help.")) =
        FeedbackDisplay.fallbackWarning
          (analyze_resume "John Doe" (fun _ => Except.ok "Sorry, I cannot help.")) ∧
      runApp "John Doe" (fun _ => Except.ok "Sorry, I cannot help.") =
        AppResult.completed
          (runPipeline "John Doe" (fun _ => Except.ok "Sorry, I cannot help.")) := by
  have h := c1_parse_failure_falls_back "John Doe"
    (fun _ => Except.ok "Sorry, I cannot help.") rfl
  exact ⟨h.1, h.2.1 (by decide)⟩

/-- The property claim C2 states, formalized as written: whenever the plain
response parses as a JSON object, wrapping that same response in a fenced
block — with any language tag, or none — parses to the same value. -/
def ClaimC2 : Prop :=
  ∀ (s tag : String),
    (∃ members, parsedFeedback s = some (JValue.obj members)) →
    parsedFeedback ("```" ++ tag ++ "\n" ++ s ++ "\n```") = parsedFeedback s ∧
      parsedFeedback ("```\n" ++ s ++ "\n```") = parsedFeedback s

/-- C2 fails on the code for language tags other than "json": a fence tagged
"py" is stripped only of its backticks, the leftover "py" makes the payload
unparseable, and the result differs from the plain parse. -/
theorem c2_counterexample : ¬ ClaimC2 := by
  intro hcl
  have h := (hcl "\x7b\"a\": 1\x7d" "py"
    ⟨[("a".data, JValue.num 1 0)], rfl⟩).1
  rw [show parsedFeedback ("```" ++ "py" ++ "\n" ++ "\x7b\"a\": 1\x7d" ++ "\n```") =
      none from rfl] at h
  rw [show parsedFeedback "\x7b\"a\": 1\x7d" =
      some (JValue.obj [("a".data, JValue.num 1 0)]) from rfl] at h
  exact Option.noConfusion h

/-- C2 (amended): for every response containing no fence marker "```"
anywhere in its text, wrapping it in a fenced block with the "json" tag or
with no tag parses to exactly the plain parse; a fence with any other
language tag can change the result (see the counterexample). -/
theorem c2_clean_fence_wrap_parse_eq :
    ∀ s : String, occursIn "```".data s.data = false →
      parsedFeedback ("```json\n" ++ s ++ "\n```") = parsedFeedback s ∧
        parsedFeedback ("```\n" ++ s ++ "\n```") = parsedFeedback s := by
  intro s h
  constructor
  · rw [parsedFeedback, parsedFeedback, normalizeFeedback_fence_json s h,
      normalizeFeedback_no_fence s h]
  · rw [parsedFeedback, parsedFeedback, normalizeFeedback_fence_plain s h,
      normalizeFeedback_no_fence s h]

theorem c2_witness :
    parsedFeedback ("```json\n" ++ "\x7b\"a\": 1\x7d" ++ "\n```") =
        parsedFeedback "\x7b\"a\": 1\x7d" ∧
      parsedFeedback ("```\n" ++ "\x7b\"a\": 1\x7d" ++ "\n```") =
        parsedFeedback "\x7b\"a\": 1\x7d" :=
  c2_clean_fence_wrap_parse_eq "\x7b\"a\": 1\x7d" (by decide)

/-- Whether the decimal number `mantissa * 10 ^ exp10` lies in [0, 100]. -/
def jnumInRange (mantissa exp10 : Int) : Bool :=
  decide (0 ≤ mantissa) &&
    (if 0 ≤ exp10 then decide (mantissa * 10 ^ exp10.toNat ≤ 100)
     else decide (mantissa ≤ 100 * 10 ^ (-exp10).toNat))

/-- The `quality_score` member, when present, is a number in [0, 100]. -/
def scoreFieldOk (members : List (List Char × JValue)) : Bool :=
  match jget members "quality_score".data with
  | some (JValue.num mantissa exp10) => jnumInRange mantissa exp10
  | some _ => false
  | none => true

/-- The named member, when present, is a JSON array. -/
def arrayFieldOk (members : List (List Char × JValue)) (key : List Char) : Bool :=
  match jget members key with
  | some (JValue.arr _) => true
  | some _ => false
  | none => true

def arrayFieldsOk (members : List (List Char × JValue)) : Bool :=
  arrayFieldOk members "sections_detected".data &&
    arrayFieldOk members "missing_sections".data &&
    arrayFieldOk members "well_written_sections".data &&
    arrayFieldOk members "suggestions".data

/-- The property claim C3 states, formalized as written: for non-empty
resume text, whenever Analyze's output is displayed as a structured
FeedbackResult, its `quality_score` lies in [0, 100] and its four list
fields are arrays (the alternative being the raw-text fallback). -/
def ClaimC3 : Prop :=
  ∀ (resume_text : String) (svc : Service), pyStrip resume_text.data ≠ [] →
    ∀ members, renderFeedback (analyze_resume resume_text svc) =
      FeedbackDisplay.structured (JValue.obj members) →
    scoreFieldOk members = true ∧ arrayFieldsOk members = true

/-- C3 fails on the code: nothing validates the parsed fields, so a service
response with `quality_score` 150 is displayed as structured feedback. -/
theorem c3_counterexample : ¬ ClaimC3 := by
  intro hcl
  have h := (hcl "John Doe" (fun _ => Except.ok "\x7b\"quality_score\": 150\x7d")
    (by decide) [("quality_score".data, JValue.num 150 0)] rfl).1
  rw [show scoreFieldOk [("quality_score".data, JValue.num 150 0)] = false
    from by decide] at h
  exact Bool.noConfusion h

/-- C3 (amended): for every non-empty resume text and every service
behavior, Analyze returns a string (exceptions are caught inside it), and
the feedback rendering is exhaustively either the parsed JSON value shown
as structured data — with no range or type constraint enforced on its
fields — or the raw-text fallback carrying Analyze's output verbatim. -/
theorem c3_analyze_total :
    ∀ (resume_text : String) (svc : Service), pyStrip resume_text.data ≠ [] →
      (∃ d, parsedFeedback (analyze_resume resume_text svc) = some d ∧
          renderFeedback (analyze_resume resume_text svc) =
            FeedbackDisplay.structured d) ∨
        renderFeedback (analyze_resume resume_text svc) =
          FeedbackDisplay.fallbackWarning (analyze_resume resume_text svc) :=
  fun resume_text svc _ => renderFeedback_cases (analyze_resume resume_text svc)

theorem c3_witness :
    (∃ d, parsedFeedback (analyze_resume "John Doe"
          (fun _ => Except.ok "\x7b\"quality_score\": 80\x7d")) = some d ∧
        renderFeedback (analyze_resume "John Doe"
          (fun _ => Except.ok "\x7b\"quality_score\": 80\x7d")) =
          FeedbackDisplay.structured d) ∨
      renderFeedback (analyze_resume "John Doe"
          (fun _ => Except.ok "\x7b\"quality_score\": 80\x7d")) =
        FeedbackDisplay.fallbackWarning (analyze_resume "John Doe"
          (fun _ => Except.ok "\x7b\"quality_score\": 80\x7d")) :=
  c3_analyze_total "John Doe" (fun _ => Except.ok "\x7b\"quality_score\": 80\x7d")
    (by decide)

/-- C4 (confirmed): a service error in any of the three stages is caught in
that stage and converted to its in-band string (the error-JSON for Analyze,
the error text for Improve and Advise); no stage re-raises — each is a
total function into `String` — and with non-empty extracted text the run
always completes all three stages in sequence. -/
theorem c4_stage_errors_inband :
    ∀ (resume_text feedback improved e : String) (svc : Service),
      (svc (analyze_prompt resume_text) = Except.error e →
        analyze_resume resume_text svc = analyzeErrorText e) ∧
      (svc (improve_prompt resume_text feedback) = Except.error e →
        improve_resume resume_text feedback svc = "Error improving resume: " ++ e) ∧
      (svc (guidance_prompt improved) = Except.error e →
        get_job_guidance improved svc = "Error generating job guidance: " ++ e) ∧
      (pyStrip resume_text.data ≠ [] →
        runApp resume_text svc = AppResult.completed (runPipeline resume_text svc)) := by
  intro resume_text feedback improved e svc
  refine ⟨?_, ?_, ?_, ?_⟩
  · intro h
    simp only [analyze_resume, h]
  · intro h
    simp only [improve_resume, h]
  · intro h
    simp only [get_job_guidance, h]
  · intro hne
    rw [runApp, if_neg (fun hc => hne (List.isEmpty_iff.mp hc))]

theorem c4_witness :
    analyze_resume "John Doe" (fun _ => Except.error "net down") =
        analyzeErrorText "net down" ∧
      improve_resume "John Doe" "fb" (fun _ => Except.error "net down") =
        "Error improving resume: " ++ "net down" ∧
      get_job_guidance "imp" (fun _ => Except.error "net down") =
        "Error generating job guidance: " ++ "net down" ∧
      runApp "John Doe" (fun _ => Except.error "net down") =
        AppResult.completed (runPipeline "John Doe" (fun _ => Except.error "net down")) := by
  have h := c4_stage_errors_inband "John Doe" "fb" "imp" "net down"
    (fun _ => Except.error "net down")
  exact ⟨h.1 rfl, h.2.1 rfl, h.2.2.1 rfl, h.2.2.2 (by decide)⟩

/-- The property claim C5 states, formalized as written: Improve and Advise
return a non-empty string on every input and every service behavior. -/
def ClaimC5 : Prop :=
  ∀ (resume_text feedback improved : String) (svc : Service),
    improve_resume resume_text feedback svc ≠ "" ∧
      get_job_guidance improved svc ≠ ""

/-- C5 fails on the code: when the service call succeeds with an empty (or
all-whitespace) response, `improve_resume` returns `response.text.strip()`,
the empty string. -/
theorem c5_counterexample : ¬ ClaimC5 := by
  intro hcl
  exact (hcl "r" "f" "i" (fun _ => Except.ok "")).1 rfl

/-- C5 (amended): whenever the underlying service call fails, Improve and
Advise return non-empty strings (the substituted error text); on success
they return the stripped response text, which is empty exactly when the
response was all whitespace. -/
theorem c5_error_text_nonempty :
    ∀ (resume_text feedback improved e : String) (svc : Service),
      (svc (improve_prompt resume_text feedback) = Except.error e →
        improve_resume resume_text feedback svc ≠ "") ∧
      (svc (guidance_prompt improved) = Except.error e →
        get_job_guidance improved svc ≠ "") := by
  intro resume_text feedback improved e svc
  constructor
  · intro h
    simp only [improve_resume, h]
    exact append_ne_empty_left e (by decide)
  · intro h
    simp only [get_job_guidance, h]
    exact append_ne_empty_left e (by decide)

theorem c5_witness :
    improve_resume "r" "f" (fun _ => Except.error "x") ≠ "" ∧
      get_job_guidance "i" (fun _ => Except.error "x") ≠ "" := by
  have h := c5_error_text_nonempty "r" "f" "i" "x" (fun _ => Except.error "x")
  exact ⟨h.1 rfl, h.2 rfl⟩

/-- C6 (confirmed): in every run, the pipeline's feedback value is exactly
Analyze's output, Improve is applied to the resume text and that exact
feedback value, and Advise is applied to exactly Improve's output: the
data flow of src/main.py lines 135-147, strictly forward. -/
theorem c6_pipeline_dataflow :
    ∀ (resume_text : String) (svc : Service),
      (runPipeline resume_text svc).feedback = analyze_resume resume_text svc ∧
        (runPipeline resume_text svc).improved =
          improve_resume resume_text ((runPipeline resume_text svc).feedback) svc ∧
        (runPipeline resume_text svc).guidance =
          get_job_guidance ((runPipeline resume_text svc).improved) svc :=
  fun _ _ => ⟨rfl, rfl, rfl⟩

/-- C7 (confirmed): when the extracted text is empty or all whitespace, the
run halts at the guard of src/main.py lines 123-125 with the
precondition-failure report, before any stage is invoked. -/
theorem c7_empty_text_halts :
    ∀ (resume_text : String) (svc : Service),
      resume_text.data.all isPyWS = true →
      runApp resume_text svc = AppResult.halted := by
  intro resume_text svc h
  rw [runApp, if_pos (by rw [pyStrip_all_ws h]; rfl)]

theorem c7_witness : runApp " \n " (fun _ => Except.ok "x") = AppResult.halted :=
  c7_empty_text_halts " \n " (fun _ => Except.ok "x") (by decide)

/-- The property claim C8 states, formalized as written: the document's
paragraphs are the lines of the improved text, one per line, in order. -/
def ClaimC8 : Prop :=
  ∀ text : String, save_docx text = pySplitlines text.data

/-- C8 fails on the code: `save_docx` strips the text before splitting, so
leading or trailing whitespace lines produce no paragraph ("\nA" has the
two lines "" and "A" but yields the single paragraph "A"). -/
theorem c8_counterexample : ¬ ClaimC8 := by
  intro hcl
  have h := hcl "\nA"
  rw [show save_docx "\nA" = [['A']] from rfl] at h
  rw [show pySplitlines "\nA".data = [[], ['A']] from rfl] at h
  exact absurd h (by decide)

/-- C8 (amended): the document contains one paragraph per line of the
whitespace-stripped text, in order; in particular, for any text without
leading or trailing whitespace it is one paragraph per line of the text
itself. -/
theorem c8_paragraphs_of_stripped :
    ∀ text : String, pyStrip text.data = text.data →
      save_docx text = pySplitlines text.data := by
  intro text h
  rw [save_docx, h]

theorem c8_witness : save_docx "A\nB" = pySplitlines "A\nB".data :=
  c8_paragraphs_of_stripped "A\nB" (by decide)

/-- C10 (confirmed): the extension dispatch of src/main.py lines 118-121
sends every file name that does not end with the exact lowercase ".pdf" —
"resume.PDF" included — to the DOCX extractor. -/
theorem c10_non_lower_pdf_to_docx :
    ∀ name : String, pyEndsWith ".pdf".data name.data = false →
      extractorFor name = Extractor.docx := by
  intro name h
  rw [extractorFor, if_neg (by rw [h]; exact Bool.false_ne_true)]

theorem c10_witness :
    pyEndsWith ".pdf".data "resume.PDF".data = false ∧
      extractorFor "resume.PDF" = Extractor.docx :=
  ⟨by decide, c10_non_lower_pdf_to_docx "resume.PDF" (by decide)⟩

/-- C9 (confirmed): when the stripped Analyze response begins with a fence
marker, the code's `str.replace` calls are global — after normalization not
a single occurrence of "```" (nor of the "```json" marker) survives
anywhere in the response, not only at the leading and trailing fence — so a
JSON payload whose string values contain backtick fences is altered before
parsing: the fenced `"use ``` fences"` payload parses with its interior
marker deleted, as witnessed by the concrete conjuncts. -/
theorem c9_global_fence_removal :
    (∀ s : String, ("```".data).isPrefixOf (pyStrip s.data) = true →
        occursIn "```".data (normalizeFeedback s) = false ∧
          occursIn "```json".data (normalizeFeedback s) = false) ∧
      parsedFeedback "```json\n\x7b\"note\": \"use ``` fences\"\x7d\n```" =
        some (JValue.obj [("note".data, JValue.str "use  fences".data)]) ∧
      occursIn "```".data "use ``` fences".data = true := by
  refine ⟨?_, rfl, by decide⟩
  intro s h
  rw [normalizeFeedback, stripFences]
  by_cases h7 : ("```json".data).isPrefixOf (pyStrip s.data) = true
  · rw [if_pos h7]
    have h1 := pyReplace_bt3_noTriple (pyReplace "```json".data [] (pyStrip s.data))
    exact ⟨occursIn_pyStrip_false h1, occursIn_bt7_false (occursIn_pyStrip_false h1)⟩
  · rw [if_neg h7, if_pos h]
    have h1 := pyReplace_bt3_noTriple (pyStrip s.data)
    exact ⟨occursIn_pyStrip_false h1, occursIn_bt7_false (occursIn_pyStrip_false h1)⟩

theorem c9_witness :
    ("```".data).isPrefixOf (pyStrip "```\nabc\n```".data) = true ∧
      occursIn "```".data (normalizeFeedback "```\nabc\n```") = false ∧
      occursIn "```json".data (normalizeFeedback "```\nabc\n```") = false := by
  refine ⟨by decide, ?_, ?_⟩
  · exact (c9_global_fence_removal.1 "```\nabc\n```" (by decide)).1
  · exact (c9_global_fence_removal.1 "```\nabc\n```" (by decide)).2
